/-
Verification of the bigquery-tools backend against its specification.

The definitions below are a shallow embedding of the Python source:
  - backend/app/models.py          (User, Session, BigQueryConfig, Object, Field)
  - backend/app/routes/auth.py     (login)
  - backend/app/utils.py           (token_required_custom)
  - backend/app/routes/api.py      (upload_config, delete_config,
                                    update_table_schema_description,
                                    get_table_schema_endpoint,
                                    generate_sql_from_natural_language)
  - backend/app/services/gemini_service.py (generate_sql_query)

Database tables are modelled as Lean lists of row structures; SQLAlchemy
queries become list lookups; datetimes become integers (any linear time
unit); UUIDs become naturals.  Python strings are Lean Strings, except
where character-level slicing matters, where List Char is used.
-/
import Mathlib

namespace BQT

/-! ## Data model (backend/app/models.py) -/

/-- Row of the users table. The password column stores an opaque verifier. -/
structure UserRow where
  id : Nat
  email : String
  pwHash : String
deriving DecidableEq, Repr

/-- Row of the sessions table (the session ledger), keyed by token text. -/
structure SessionRow where
  token : String
  userId : Nat
  expiresAt : Int
deriving DecidableEq, Repr

/-- State visible to the auth gateway: users plus the session ledger. -/
structure AuthState where
  users : List UserRow
  sessions : List SessionRow
deriving DecidableEq, Repr

/-- A bearer token as the JWT layer exposes it: the literal token text,
whether its cryptographic signature verifies, the embedded expiry claim,
and the identity claim together with whether it parses as a UUID. -/
structure Token where
  body : String
  sigValid : Bool
  embExp : Int
  identity : Nat
  identityValid : Bool
deriving DecidableEq, Repr

/-- Outcome of token_required_custom: either the resolved principal or an
HTTP error response (status code and JSON message). -/
inductive AuthResult where
  | ok (userId : Nat)
  | err (status : Nat) (msg : String)
deriving DecidableEq, Repr

/-- Response message when the JWT signature does not verify.  The app
registers no custom JWT error handlers (a bare JWTManager in __init__.py),
so flask-jwt-extended's default invalid-token handler answers, with
status 422 (utils.py line 14 notes the library handlers return 401 or
422). -/
def msgInvalidToken : String := "Signature verification failed"

/-- Response message when the embedded expiry claim has passed.  The
library's default expired-token handler answers with status 401. -/
def msgJwtExpired : String := "Token has expired"

/-- utils.py line 29. -/
def msgRevoked : String := "Token not found in active sessions or has been revoked."

/-- utils.py line 33. -/
def msgLedgerExpired : String := "Token has expired according to server session records."

/-- utils.py line 43. -/
def msgBadIdentity : String := "Invalid user identifier format in token."

/-- utils.py line 48. -/
def msgUserGone : String := "User associated with this token no longer exists."

/-- Session.is_expired (models.py line 40): `datetime.utcnow() > expires_at`. -/
def SessionRow.is_expired (s : SessionRow) (now : Int) : Bool :=
  s.expiresAt < now

/-- token_required_custom (utils.py lines 9-52).  Checks run in source
order: JWT signature, JWT embedded expiry (both inside
verify_jwt_in_request, answered by the library's default handlers: 422
for an invalid token, 401 for an expired one), session-ledger lookup by
verbatim token, ledger expiry, UUID parse of the identity claim, user
resolution. -/
def token_required_custom (st : AuthState) (tok : Token) (now : Int) : AuthResult :=
  if ¬ tok.sigValid then .err 422 msgInvalidToken
  else if tok.embExp ≤ now then .err 401 msgJwtExpired
  else
    match st.sessions.find? (fun s => s.token = tok.body) with
    | none => .err 401 msgRevoked
    | some s =>
      if s.is_expired now then .err 401 msgLedgerExpired
      else if ¬ tok.identityValid then .err 401 msgBadIdentity
      else if st.users.any (fun u => u.id = tok.identity) then .ok tok.identity
      else .err 401 msgUserGone

/-- check_password (models.py line 19): password hashing is opaque to this
core, so the verifier is modelled as equality with the stored value. -/
def checkPassword (stored provided : String) : Bool :=
  stored = provided

/-- create_access_token (auth.py line 43), as the JWT layer produces it: a
signed token whose embedded expiry is now plus the configured TTL and whose
identity claim is the user id. -/
def mkToken (uid : Nat) (now ttl : Int) : Token :=
  { body := "jwt-" ++ toString uid ++ "-" ++ toString now
  , sigValid := true
  , embExp := now + ttl
  , identity := uid
  , identityValid := true }

/-- login (auth.py lines 9-54): find the user by email, verify the
password, mint a token, insert a Session row with
expires_at = now + JWT_ACCESS_TOKEN_EXPIRES, and return token and expiry.
Returns none for the 401 invalid-credentials responses. -/
def login (st : AuthState) (email pw : String) (now ttl : Int) :
    AuthState × Option (Token × Int) :=
  match st.users.find? (fun u => u.email = email) with
  | none => (st, none)
  | some u =>
    if checkPassword u.pwHash pw then
      let tok := mkToken u.id now ttl
      ({ st with sessions := ⟨tok.body, u.id, now + ttl⟩ :: st.sessions },
       some (tok, now + ttl))
    else (st, none)

/-! ## Connection registry (models.py BigQueryConfig, api.py upload_config,
delete_config) -/

/-- Row of the bigquery_configs table.  The gcp_key_json payload is not
needed by any proved property beyond presence, so it is not stored. -/
structure ConfigRow where
  id : Nat
  userId : Nat
  name : String
deriving DecidableEq, Repr

/-- The bigquery_configs table plus an id allocator. -/
structure Registry where
  configs : List ConfigRow
  nextId : Nat
deriving DecidableEq, Repr

/-- upload_config, JSON branch (api.py lines 70-123), happy sequential
semantics.  The gcp_key_json payload is modelled as an optional key/value
list: none models a non-dict payload (line 95), the empty list models an
empty dict, which is falsy at line 103.  Returns the new registry and the
HTTP status. -/
def upload_config (reg : Registry) (uid : Nat) (name : Option String)
    (key : Option (List (String × String))) : Registry × Nat :=
  match key with
  | none => (reg, 400)
  | some kv =>
    match name with
    | none => (reg, 400)
    | some n =>
      if n.isEmpty then (reg, 400)
      else if kv.isEmpty then (reg, 400)
      else if reg.configs.any (fun c => c.userId = uid && c.name = n) then (reg, 409)
      else ({ configs := reg.configs ++ [⟨reg.nextId, uid, n⟩],
              nextId := reg.nextId + 1 }, 201)

/-- The commit step of upload_config in isolation: the INSERT runs against
the storage layer, whose unique constraint uq_user_connection_name
(models.py line 54) rejects a duplicate (user_id, connection_name).  The
raised IntegrityError is caught by the generic handler at api.py lines
120-123, which rolls back and returns 500. -/
def commitInsert (reg : Registry) (uid : Nat) (n : String) : Registry × Nat :=
  if reg.configs.any (fun c => c.userId = uid && c.name = n) then (reg, 500)
  else ({ configs := reg.configs ++ [⟨reg.nextId, uid, n⟩],
          nextId := reg.nextId + 1 }, 201)

/-- Two concurrent upload_config calls with identical (uid, name): both run
the line-107 existence check against the same snapshot before either
commits, then the commits serialize.  Returns the final registry and the
two HTTP statuses. -/
def upload_config_race (reg : Registry) (uid : Nat) (n : String) :
    Registry × Nat × Nat :=
  let seen := reg.configs.any (fun c => c.userId = uid && c.name = n)
  if seen then (reg, 409, 409)
  else
    let (reg1, s1) := commitInsert reg uid n
    let (reg2, s2) := commitInsert reg1 uid n
    (reg2, s1, s2)

/-! ## Schema metadata store (models.py Object, Field) -/

/-- Row of the objects table. -/
structure ObjectRow where
  id : Nat
  userId : Nat
  connectionId : Nat
  objectName : String
  objectDescription : Option String
deriving DecidableEq, Repr

/-- Row of the fields table. -/
structure FieldRow where
  id : Nat
  objectId : Nat
  fieldName : String
  fieldDescription : Option String
deriving DecidableEq, Repr

/-- The objects and fields tables plus an id allocator. -/
structure MetaStore where
  objects : List ObjectRow
  fields : List FieldRow
  nextId : Nat
deriving DecidableEq, Repr

/-- delete_config (api.py lines 548-576).  models.py configures no delete
cascade on the BigQueryConfig-to-Object relationship (Object line 73 has a
plain backref) and objects.connection_id is NOT NULL (line 65), so when
owned Object rows exist the flush of the parent DELETE nulls the child
foreign key, the database raises, the SQLAlchemyError handler at lines
569-572 rolls back and returns 500.  Without owned objects the row is
deleted and 200 returned. -/
def delete_config (reg : Registry) (ms : MetaStore) (uid cfgId : Nat) :
    Registry × MetaStore × Nat :=
  match reg.configs.find? (fun c => c.id = cfgId && c.userId = uid) with
  | none => (reg, ms, 404)
  | some cfg =>
    if ms.objects.any (fun o => o.connectionId = cfg.id) then (reg, ms, 500)
    else ({ reg with configs := reg.configs.filter (fun c => c.id ≠ cfg.id) }, ms, 200)

/-! ## Metadata upsert (api.py update_table_schema_description) -/

/-- One entry of the request's fields list.  Python distinguishes key
presence from value: `name` is field_info.get with none for an absent key,
`hasDescription` is the test at line 342 whether the field_description key
is present at all, `description` is its value (none models JSON null or an
absent key). -/
structure FieldSpec where
  name : Option String
  hasDescription : Bool
  description : Option String
deriving DecidableEq, Repr

/-- The /table_schema_update request body.  `hasObjectDescription` is the
key-presence test at line 317; `fields = none` models an absent or null
fields key. -/
structure UpsertRequest where
  connectionId : Nat
  objectName : String
  hasObjectDescription : Bool
  objectDescription : Option String
  fields : Option (List FieldSpec)
deriving DecidableEq, Repr

/-- Result of update_table_schema_description: object id on success,
otherwise the HTTP error status. -/
inductive UpsertResult where
  | ok (objectId : Nat)
  | err (status : Nat)
deriving DecidableEq, Repr

/-- Assignment `db_field.field_description = field_description` on the row
found by Field.query.filter_by(...).first() (api.py lines 330-343): update
the first row matching (object_id, field_name). -/
def updateFirstField (objId : Nat) (fn : String) (desc : Option String) :
    List FieldRow → List FieldRow
  | [] => []
  | f :: fs =>
    if f.objectId = objId ∧ f.fieldName = fn then
      { f with fieldDescription := desc } :: fs
    else f :: updateFirstField objId fn desc fs

/-- Assignment `db_object.object_description = object_description` on the
row found by Object.query.filter_by(...).first() (api.py lines 299-318). -/
def updateFirstObject (uid cid : Nat) (name : String) (desc : Option String) :
    List ObjectRow → List ObjectRow
  | [] => []
  | o :: os =>
    if o.userId = uid ∧ o.connectionId = cid ∧ o.objectName = name then
      { o with objectDescription := desc } :: os
    else o :: updateFirstObject uid cid name desc os

/-- The fields loop of update_table_schema_description (api.py lines
320-343).  A missing or empty field_name aborts the request (the rollback
at line 327 is applied by the caller); an unknown field is created with the
supplied description; an existing field is updated only when the
field_description key is present. -/
def processFields (objId : Nat) : List FieldSpec → MetaStore → Option MetaStore
  | [], ms => some ms
  | fi :: rest, ms =>
    match fi.name with
    | none => none
    | some fn =>
      if fn.isEmpty then none
      else
        match ms.fields.find? (fun f => f.objectId = objId && f.fieldName = fn) with
        | none =>
          processFields objId rest
            { ms with fields := ms.fields ++ [⟨ms.nextId, objId, fn, fi.description⟩],
                      nextId := ms.nextId + 1 }
        | some _ =>
          if fi.hasDescription then
            processFields objId rest
              { ms with fields := updateFirstField objId fn fi.description ms.fields }
          else processFields objId rest ms

/-- update_table_schema_description (api.py lines 270-355): validate, check
connection ownership, find or create the Object (updating its description
only when the object_description key is present), then run the fields
loop; on a field error the whole transaction rolls back to the original
store and 400 is returned; on success everything commits atomically. -/
def update_table_schema_description (reg : Registry) (ms : MetaStore) (uid : Nat)
    (req : UpsertRequest) : MetaStore × UpsertResult :=
  if req.objectName.isEmpty then (ms, .err 400)
  else
    match reg.configs.find? (fun c => c.id = req.connectionId && c.userId = uid) with
    | none => (ms, .err 404)
    | some cfg =>
      let step : MetaStore × Nat :=
        match ms.objects.find? (fun o =>
            o.userId = uid && o.connectionId = cfg.id && o.objectName = req.objectName) with
        | none =>
          ({ ms with
              objects := ms.objects ++
                [⟨ms.nextId, uid, cfg.id, req.objectName, req.objectDescription⟩],
              nextId := ms.nextId + 1 }, ms.nextId)
        | some o =>
          ((if req.hasObjectDescription then
              { ms with objects :=
                  updateFirstObject uid cfg.id req.objectName req.objectDescription ms.objects }
            else ms), o.id)
      let fl := match req.fields with | none => [] | some l => l
      match processFields step.2 fl step.1 with
      | none => (ms, .err 400)
      | some ms2 => (ms2, .ok step.2)

/-! ## Context assembler (api.py generate_sql_from_natural_language,
lines 418-464) -/

/-- One entry of objects_with_fields_data: object name, description, and
(field_name, field_description) pairs. -/
structure ObjectContext where
  objectName : String
  objectDescription : Option String
  fields : List (String × Option String)
deriving DecidableEq, Repr

/-- The fields built for one Object row (api.py lines 432-436, 459-463). -/
def fieldsOf (ms : MetaStore) (o : ObjectRow) : List (String × Option String) :=
  (ms.fields.filter (fun f => f.objectId = o.id)).map
    (fun f => (f.fieldName, f.fieldDescription))

/-- The context entry for one requested object name (api.py lines 422-439):
unknown names yield a null description and an empty field list. -/
def entryFor (ms : MetaStore) (uid cid : Nat) (n : String) : ObjectContext :=
  match ms.objects.find? (fun o =>
      o.userId = uid && o.connectionId = cid && o.objectName = n) with
  | none => ⟨n, none, []⟩
  | some o => ⟨n, o.objectDescription, fieldsOf ms o⟩

/-- Full-context fallback (api.py lines 445-464): every Object of the user
under the connection. -/
def fullContext (ms : MetaStore) (uid cid : Nat) : List ObjectContext :=
  (ms.objects.filter (fun o => o.userId = uid && o.connectionId = cid)).map
    (fun o => ⟨o.objectName, o.objectDescription, fieldsOf ms o⟩)

/-- Python truthiness of the line-420 test
`if object_names and len(object_names) > 0`. -/
def namesRequested : Option (List String) → Bool
  | none => false
  | some l => !l.isEmpty && decide (l.length > 0)

/-- Context assembly (api.py lines 418-464): per-name resolution when a
non-empty list is supplied, otherwise the full-context fallback. -/
def assembleContext (ms : MetaStore) (uid cid : Nat)
    (names : Option (List String)) : List ObjectContext :=
  if namesRequested names then (names.getD []).map (entryFor ms uid cid)
  else fullContext ms uid cid

/-! ## Schema fetch validation (api.py get_table_schema_endpoint) -/

/-- Python str.split with a one-character dot separator, over the
characters of the name. -/
def splitDots : List Char → List (List Char)
  | [] => [[]]
  | c :: cs =>
    let r := splitDots cs
    if c = '.' then [] :: r
    else
      match r with
      | s :: rest => (c :: s) :: rest
      | [] => [[c]]

/-- The /table_schema request body: connection_id and object_name, each
possibly absent.  The object name is kept at character level because the
validation splits it on dots. -/
structure TSRequest where
  connectionId : Option Nat
  objectName : Option (List Char)
deriving DecidableEq, Repr

/-- Outcome of get_table_schema_endpoint up to the point where a warehouse
client would be built: 400 responses, the 404 for a missing or foreign
connection, or the construction of BigQueryService followed by the network
call (api.py lines 248-250). -/
inductive TSOutcome where
  | badRequest (msg : String)
  | notFound
  | bqServiceCall (connId : Nat) (name : List Char)
deriving DecidableEq, Repr

/-- api.py line 229. -/
def msgBodyJson : String := "Request body must be JSON."

/-- api.py line 235. -/
def msgConnRequired : String := "connection_id is required."

/-- api.py line 237 (quotes of the original message omitted). -/
def msgNameRequired : String := "object_name is required (e.g., dataset_id.table_id)."

/-- api.py line 241 (quotes of the original message omitted). -/
def msgFormat : String := "Invalid object_name format. Expected dataset_id.table_id."

/-- get_table_schema_endpoint (api.py lines 222-250), up to the warehouse
call.  The two-segment check at line 240 runs before the connection is
resolved and before any BigQueryService is constructed. -/
def get_table_schema_endpoint (reg : Registry) (uid : Nat)
    (req : Option TSRequest) : TSOutcome :=
  match req with
  | none => .badRequest msgBodyJson
  | some r =>
    match r.connectionId with
    | none => .badRequest msgConnRequired
    | some cid =>
      match r.objectName with
      | none => .badRequest msgNameRequired
      | some name =>
        if name.isEmpty then .badRequest msgNameRequired
        else if ¬ name.contains '.' ∨ (splitDots name).length ≠ 2 then
          .badRequest msgFormat
        else
          match reg.configs.find? (fun c => c.id = cid && c.userId = uid) with
          | none => .notFound
          | some cfg => .bqServiceCall cfg.id name

/-! ## Markdown fence cleanup (gemini_service.py generate_sql_query,
lines 106-117) -/

/-- ASCII lowering of one character, as Python str.lower acts on the
characters these checks compare. -/
def pyLower (c : Char) : Char :=
  if 'A' ≤ c ∧ c ≤ 'Z' then Char.ofNat (c.toNat + 32) else c

/-- Python str.lower over the characters of the text. -/
def lowerChars (l : List Char) : List Char :=
  l.map pyLower

/-- Python str.startswith at character level. -/
def startsWithChars : List Char → List Char → Bool
  | _, [] => true
  | [], _ :: _ => false
  | c :: cs, p :: ps => c = p && startsWithChars cs ps

/-- Python str.endswith at character level. -/
def endsWithChars (l pat : List Char) : Bool :=
  startsWithChars l.reverse pat.reverse

/-- The whitespace Python str.strip removes (the subset occurring here). -/
def isPySpace (c : Char) : Bool :=
  c = ' ' || c = '\n' || c = '\t' || c = '\r'

/-- Python str.strip at character level. -/
def pyStrip (l : List Char) : List Char :=
  ((l.dropWhile isPySpace).reverse.dropWhile isPySpace).reverse

/-- The markdown cleanup applied to the model's response text
(gemini_service.py lines 107-117), character by character: strip, then
drop 5 characters when the lowered text starts with the six-character
fence, then drop 3 when the remainder starts with a bare fence, then drop
a trailing bare fence, then strip again. -/
def cleanupGeneratedSql (raw : List Char) : List Char :=
  let s0 := pyStrip raw
  let s1 := if startsWithChars (lowerChars s0) ("```sql".toList) then s0.drop 5 else s0
  let s2 := if startsWithChars (lowerChars s1) ("```".toList) then s1.drop 3 else s1
  let s3 := if endsWithChars s2 ("```".toList) then s2.take (s2.length - 3) else s2
  pyStrip s3

/-! ## SQL generation service and route tail (gemini_service.py
generate_sql_query, api.py lines 470-510) -/

/-- The line for one field in the prompt (gemini_service.py lines 63-67);
an empty description is falsy and adds no suffix. -/
def fieldLine (f : String × Option String) : String :=
  let base := "- `" ++ f.1 ++ "`"
  match f.2 with
  | some d => if d.isEmpty then base else base ++ " (Description: " ++ d ++ ")"
  | none => base

/-- The prompt block for one object (gemini_service.py lines 54-73). -/
def tablePrompt (o : ObjectContext) : String :=
  let head := "\nTable `" ++ o.objectName ++ "`"
  let head :=
    match o.objectDescription with
    | some d => if d.isEmpty then head ++ ":" else head ++ " (Description: " ++ d ++ "):"
    | none => head ++ ":"
  if o.fields.isEmpty then
    head ++ "\n- (No field information available for this table)"
  else head ++ "\n" ++ String.intercalate "\n" (o.fields.map fieldLine)

/-- The full prompt sent to the model (gemini_service.py lines 48-78). -/
def buildPrompt (userRequest : String) (objs : List ObjectContext) : String :=
  String.intercalate "\n"
    (["Based on the following table structures and user request, generate a BigQuery SQL query.",
      "Return ONLY the SQL query and nothing else. Do not include any introductory text, explanations, or markdown formatting like ```sql ... ```.",
      "Ensure the query is valid BigQuery SQL syntax."]
     ++ objs.map tablePrompt
     ++ ["\nUser request: \"" ++ userRequest ++ "\"",
         "\nGenerated BigQuery SQL Query:"])

/-- generate_sql_query up to the external model call: the early None
returns of gemini_service.py lines 43-46, or the prompt that would be sent
to the model. -/
inductive GsqlOutcome where
  | noneResult
  | wouldCallModel (prompt : String)
deriving DecidableEq, Repr

/-- generate_sql_query (gemini_service.py lines 20-78): returns None when
the user request or the objects_with_fields list is empty (both falsy
checks), otherwise builds the prompt and calls the model. -/
def generate_sql_query (userRequest : String) (objs : List ObjectContext) :
    GsqlOutcome :=
  if userRequest.isEmpty then .noneResult
  else if objs.isEmpty then .noneResult
  else .wouldCallModel (buildPrompt userRequest objs)

/-- Outcome of GeminiService.__init__ as called from the route.
gemini_service.py line 8 declares api_key as a required positional
argument; calling the constructor without it raises TypeError before the
body runs.  An empty key raises ValueError (line 10). -/
inductive InitResult where
  | missingArgument
  | badKey
  | initOk
deriving DecidableEq, Repr

/-- GeminiService construction for a given optional api_key argument. -/
def geminiServiceInit : Option String → InitResult
  | none => .missingArgument
  | some k => if k.isEmpty then .badKey else .initOk

/-- Outcome of generate_sql_from_natural_language: an HTTP response, an
exception escaping the handler (which the framework turns into a generic
500), or reaching the external model call with the built prompt. -/
inductive NlOutcome where
  | resp (status : Nat)
  | uncaughtError
  | modelCall (prompt : String)
deriving DecidableEq, Repr

/-- generate_sql_from_natural_language (api.py lines 390-510): validate,
resolve the connection, assemble the context, construct the service - the
call at line 490 is GeminiService() with no api_key argument - and map the
service result: sql present gives 200, prompt without sql gives 422, a
None result gives 422. -/
def generate_sql_from_natural_language (reg : Registry) (ms : MetaStore)
    (uid : Nat) (userRequest : String) (connId : Nat)
    (objectNames : Option (List String)) : NlOutcome :=
  if userRequest.isEmpty then .resp 400
  else
    match reg.configs.find? (fun c => c.id = connId && c.userId = uid) with
    | none => .resp 404
    | some cfg =>
      let ctx := assembleContext ms uid cfg.id objectNames
      match geminiServiceInit none with
      | .badKey => .resp 500
      | .missingArgument => .uncaughtError
      | .initOk =>
        match generate_sql_query userRequest ctx with
        | .noneResult => .resp 422
        | .wouldCallModel p => .modelCall p

/-! ## Helper lemmas -/

/-- Both branches of entryFor label the entry with the requested name. -/
theorem entryFor_objectName (ms : MetaStore) (uid cid : Nat) (n : String) :
    (entryFor ms uid cid n).objectName = n := by
  unfold entryFor
  split <;> rfl

/-- When a name occurs nowhere in the request list, no produced entry
carries it. -/
theorem filter_map_entryFor_of_count_zero (ms : MetaStore) (uid cid : Nat)
    (n : String) (as : List String) (h : as.count n = 0) :
    (as.map (entryFor ms uid cid)).filter (fun e => e.objectName = n) = [] := by
  induction as with
  | nil => rfl
  | cons a rest ih =>
    have ha : a ≠ n := by
      intro hcon
      subst hcon
      rw [List.count_cons_self] at h
      omega
    have hrest : rest.count n = 0 := by
      rwa [List.count_cons_of_ne (Ne.symm ha)] at h
    simp only [List.map_cons, List.filter_cons, entryFor_objectName]
    rw [if_neg (by simp [ha])]
    exact ih hrest

/-- When a name occurs exactly once in the request list and resolves to no
Object, the produced entries carrying it are exactly the one degraded
entry. -/
theorem filter_map_entryFor_count_one (ms : MetaStore) (uid cid : Nat)
    (n : String) (l : List String)
    (hmem : n ∈ l) (hcount : l.count n = 1)
    (hnone : ms.objects.find? (fun o =>
        o.userId = uid && o.connectionId = cid && o.objectName = n) = none) :
    (l.map (entryFor ms uid cid)).filter (fun e => e.objectName = n) =
      [⟨n, none, []⟩] := by
  induction l with
  | nil => cases hmem
  | cons a rest ih =>
    simp only [List.map_cons, List.filter_cons, entryFor_objectName]
    by_cases ha : a = n
    · subst ha
      have hrest : rest.count a = 0 := by
        rw [List.count_cons_self] at hcount
        omega
      rw [if_pos (by simp)]
      rw [filter_map_entryFor_of_count_zero ms uid cid a rest hrest]
      simp [entryFor, hnone]
    · have hmem' : n ∈ rest := by
        cases hmem with
        | head => exact absurd rfl ha
        | tail _ h => exact h
      have hcount' : rest.count n = 1 := by
        rwa [List.count_cons_of_ne (Ne.symm ha)] at hcount
      rw [if_neg (by simp [ha])]
      exact ih hmem' hcount'

/-! ### C6: empty list and null requested_object_names coincide -/

/-- C6: for every user and connection, assemble_context invoked with an
empty requested_object_names list returns the same contexts as
assemble_context invoked with the list absent: both take the
full-context fallback over all Objects the user owns under the
connection. -/
theorem assembleContext_empty_eq_null (ms : MetaStore) (uid cid : Nat) :
    assembleContext ms uid cid (some []) = assembleContext ms uid cid none := rfl

/-! ### C7: unknown requested names degrade gracefully -/

/-- C7: a requested object name with no matching Object under the user and
connection yields exactly one context entry, with a null description and an
empty field list, and context assembly returns normally rather than
failing. -/
theorem assembleContext_unknown_name (ms : MetaStore) (uid cid : Nat)
    (l : List String) (n : String)
    (hmem : n ∈ l) (hcount : l.count n = 1)
    (hnone : ms.objects.find? (fun o =>
        o.userId = uid && o.connectionId = cid && o.objectName = n) = none) :
    (assembleContext ms uid cid (some l)).filter (fun e => e.objectName = n) =
      [⟨n, none, []⟩] := by
  have hreq : namesRequested (some l) = true := by
    cases l with
    | nil => cases hmem
    | cons a as => simp [namesRequested]
  rw [assembleContext, hreq]
  rw [if_pos rfl]
  exact filter_map_entryFor_count_one ms uid cid n l hmem hcount hnone

/-- Witness for C7: one requested name, a.b, against an empty metadata
store. -/
theorem assembleContext_unknown_name_witness :
    (assembleContext ⟨[], [], 0⟩ 1 7 (some ["a.b"])).filter
      (fun e => e.objectName = "a.b") = [⟨"a.b", none, []⟩] :=
  assembleContext_unknown_name ⟨[], [], 0⟩ 1 7 ["a.b"] "a.b"
    (by decide) (by decide) (by decide)

/-! ### C9: markdown fence cleanup leaves a remnant -/

/-- C9: on the model response
three backticks, sql, newline, SELECT 1;, newline, three backticks,
the cleanup in generate_sql_query drops only five of the six characters of
the opening fence, so the returned sql still begins with the letter l of
sql; the fence is not fully removed (the repository's own unit test
test_generate_sql_query_markdown_cleanup expects SELECT 1; here). -/
theorem cleanupGeneratedSql_leaves_remnant :
    cleanupGeneratedSql ("```sql\nSELECT 1;\n```".toList) = "l\nSELECT 1;".toList ∧
    cleanupGeneratedSql ("```sql\nSELECT 1;\n```".toList) ≠ "SELECT 1;".toList := by
  decide

/-! ### C4: connection deletion does not cascade -/

/-- C4: with one connection (id 7) owning one Object (id 2) that owns one
Field (id 3), delete_config on that connection returns 500 and leaves the
connection, the Object and the Field all in place: models.py configures no
delete cascade from BigQueryConfig to Object, so the flush violates the
NOT NULL objects.connection_id column and the transaction rolls back. -/
theorem delete_config_blocked_by_owned_objects :
    delete_config ⟨[⟨7, 1, "c"⟩], 8⟩
        ⟨[⟨2, 1, 7, "d.t", some "D"⟩], [⟨3, 2, "total", some "F1"⟩], 4⟩ 1 7 =
      (⟨[⟨7, 1, "c"⟩], 8⟩,
       ⟨[⟨2, 1, 7, "d.t", some "D"⟩], [⟨3, 2, "total", some "F1"⟩], 4⟩, 500) ∧
    (⟨2, 1, 7, "d.t", some "D"⟩ : ObjectRow) ∈
      (delete_config ⟨[⟨7, 1, "c"⟩], 8⟩
        ⟨[⟨2, 1, 7, "d.t", some "D"⟩], [⟨3, 2, "total", some "F1"⟩], 4⟩ 1 7).2.1.objects ∧
    (⟨3, 2, "total", some "F1"⟩ : FieldRow) ∈
      (delete_config ⟨[⟨7, 1, "c"⟩], 8⟩
        ⟨[⟨2, 1, 7, "d.t", some "D"⟩], [⟨3, 2, "total", some "F1"⟩], 4⟩ 1 7).2.1.fields := by
  decide

/-! ### C10: empty context is never surfaced as 422 -/

/-- C10: generate_sql_query does return None on an empty
objects_with_fields list, but a request against a connection with no
stored metadata never reaches that branch: the route constructs
GeminiService() without the required api_key argument, the resulting
TypeError is caught by none of the except clauses, and the caller sees the
framework's generic 500, not the unprocessable 422. -/
theorem nl_generation_empty_context_not_422 :
    generate_sql_from_natural_language ⟨[⟨7, 1, "c"⟩], 8⟩ ⟨[], [], 0⟩ 1
        "find users" 7 none = .uncaughtError ∧
    generate_sql_from_natural_language ⟨[⟨7, 1, "c"⟩], 8⟩ ⟨[], [], 0⟩ 1
        "find users" 7 none ≠ .resp 422 ∧
    generate_sql_query "find users" [] = .noneResult := by
  decide

/-! ### C3: failing checks are distinguishable -/

/-- C3 counterexample: failing authenticate runs are not one generic
response.  Under the same token, a run failing the ledger-lookup check
(empty session ledger) and a run failing the ledger-expiry check (ledger
row expired) both return 401 but with different check-specific messages;
and a run failing the signature check is answered by the library's
default invalid-token handler with status 422, differing even in status
code. -/
theorem token_required_custom_responses_differ :
    token_required_custom ⟨[⟨1, "a@b", "pw"⟩], []⟩ (mkToken 1 0 1000) 50 ≠
      token_required_custom ⟨[⟨1, "a@b", "pw"⟩], [⟨"jwt-1-0", 1, 10⟩]⟩
        (mkToken 1 0 1000) 50 ∧
    token_required_custom ⟨[⟨1, "a@b", "pw"⟩], []⟩ (mkToken 1 0 1000) 50 =
      .err 401 msgRevoked ∧
    token_required_custom ⟨[⟨1, "a@b", "pw"⟩], [⟨"jwt-1-0", 1, 10⟩]⟩
        (mkToken 1 0 1000) 50 = .err 401 msgLedgerExpired ∧
    msgRevoked ≠ msgLedgerExpired ∧
    token_required_custom ⟨[⟨1, "a@b", "pw"⟩], []⟩
        { mkToken 1 0 1000 with sigValid := false } 50 =
      .err 422 msgInvalidToken ∧
    (422 : Nat) ≠ 401 := by
  decide

/-- C3 amended: once the signature check has passed, every failing
token_required_custom run carries HTTP status 401, but the in-decorator
failure messages are pairwise distinct, so runs failing different checks
are distinguishable by message; the signature-check failure itself is
answered by the library default with status 422, so failures are not one
uniform response. -/
theorem token_required_custom_failures_after_sig_401 (st : AuthState)
    (tok : Token) (now : Int) (status : Nat) (msg : String)
    (hsig : tok.sigValid = true)
    (h : token_required_custom st tok now = .err status msg) :
    status = 401 ∧ msgRevoked ≠ msgLedgerExpired ∧ msgRevoked ≠ msgBadIdentity ∧
    msgRevoked ≠ msgUserGone ∧ msgLedgerExpired ≠ msgBadIdentity ∧
    msgLedgerExpired ≠ msgUserGone ∧ msgBadIdentity ≠ msgUserGone := by
  refine ⟨?_, by decide, by decide, by decide, by decide, by decide, by decide⟩
  rw [token_required_custom, if_neg (by simp [hsig])] at h
  split at h
  · cases h; rfl
  · split at h
    · cases h; rfl
    · split at h
      · cases h; rfl
      · split at h
        · cases h; rfl
        · split at h
          · cases h
          · cases h; rfl

/-- Witness for the C3 amended theorem at a concrete failing run (valid
signature, session ledger empty). -/
theorem token_required_custom_failures_after_sig_401_witness :
    (401 : Nat) = 401 ∧ msgRevoked ≠ msgLedgerExpired ∧
    msgRevoked ≠ msgBadIdentity ∧ msgRevoked ≠ msgUserGone ∧
    msgLedgerExpired ≠ msgBadIdentity ∧ msgLedgerExpired ≠ msgUserGone ∧
    msgBadIdentity ≠ msgUserGone :=
  token_required_custom_failures_after_sig_401 ⟨[], []⟩ (mkToken 1 0 1000) 50
    401 msgRevoked (by decide) (by decide)

/-- An invalid signature short-circuits token_required_custom. -/
theorem token_required_custom_sig_fail (st : AuthState) (tok : Token)
    (now : Int) (h : tok.sigValid = false) :
    token_required_custom st tok now = .err 422 msgInvalidToken := by
  rw [token_required_custom, if_pos (by simp [h])]

/-- A signature-valid, embedded-unexpired token absent from the ledger is
revoked. -/
theorem token_required_custom_revoked (st : AuthState) (tok : Token)
    (now : Int) (hsig : tok.sigValid = true) (hemb : ¬ tok.embExp ≤ now)
    (habs : st.sessions.find? (fun s => s.token = tok.body) = none) :
    token_required_custom st tok now = .err 401 msgRevoked := by
  rw [token_required_custom, if_neg (by simp [hsig]), if_neg hemb, habs]

/-- token_required_custom reduced past the signature, embedded-expiry and
ledger-lookup checks when the ledger holds the token. -/
theorem token_required_custom_found (st : AuthState) (tok : Token)
    (now : Int) (s : SessionRow)
    (hsig : tok.sigValid = true) (hemb : ¬ tok.embExp ≤ now)
    (hfind : st.sessions.find? (fun x => x.token = tok.body) = some s) :
    token_required_custom st tok now =
      (if s.is_expired now then .err 401 msgLedgerExpired
       else if ¬ tok.identityValid then .err 401 msgBadIdentity
       else if st.users.any (fun u => u.id = tok.identity) then .ok tok.identity
       else .err 401 msgUserGone) := by
  rw [token_required_custom, if_neg (by simp [hsig]), if_neg hemb, hfind]

/-! ### C1: login tokens authenticate; deleted sessions are revoked; check
order -/

/-- C1: a token returned by a valid login authenticates successfully while
both its embedded expiry and the ledger expires_at are in the future; a
token whose Session row is absent from the ledger is rejected with the
revocation outcome (401, the ledger-check message) even when its signature
is valid and its embedded expiry is in the future; and the checks run in
order: signature first, then ledger lookup, then ledger expiry (even when
the user no longer exists), then user resolution. -/
theorem login_authenticate_contract
    (st st' : AuthState) (email pw : String) (now ttl t : Int)
    (tok : Token) (expAt : Int)
    (hlog : login st email pw now ttl = (st', some (tok, expAt))) :
    (t < tok.embExp → t < expAt →
      token_required_custom st' tok t = .ok tok.identity) ∧
    (∀ (s2 : AuthState) (tk : Token) (t2 : Int),
      tk.sigValid = true → t2 < tk.embExp →
      s2.sessions.find? (fun s => s.token = tk.body) = none →
      token_required_custom s2 tk t2 = .err 401 msgRevoked) ∧
    (∀ (s2 : AuthState) (tk : Token) (t2 : Int),
      tk.sigValid = false →
      token_required_custom s2 tk t2 = .err 422 msgInvalidToken) ∧
    (∀ (s2 : AuthState) (tk : Token) (t2 : Int) (srow : SessionRow),
      tk.sigValid = true → t2 < tk.embExp →
      s2.sessions.find? (fun s => s.token = tk.body) = some srow →
      srow.expiresAt < t2 →
      token_required_custom s2 tk t2 = .err 401 msgLedgerExpired) := by
  refine ⟨?_, ?_, ?_, ?_⟩
  · intro hemb hledger
    rw [login] at hlog
    cases hfind : st.users.find? (fun u => u.email = email) with
    | none =>
      simp only [hfind] at hlog
      simp at hlog
    | some u =>
      simp only [hfind] at hlog
      by_cases hpw : checkPassword u.pwHash pw = true
      · rw [if_pos hpw] at hlog
        simp only [Prod.mk.injEq, Option.some.injEq] at hlog
        obtain ⟨hst, htok, hexpat⟩ := hlog
        subst hst
        subst htok
        subst hexpat
        have hu : u ∈ st.users := List.mem_of_find?_eq_some hfind
        rw [token_required_custom_found _ _ _
            ⟨(mkToken u.id now ttl).body, u.id, now + ttl⟩
            rfl (by simp only [mkToken] at hemb ⊢; omega)
            (List.find?_cons_of_pos _ (by simp))]
        rw [if_neg (by simp only [SessionRow.is_expired, decide_eq_true_eq,
              Bool.not_eq_true, decide_eq_false_iff_not]; omega)]
        rw [if_neg (by simp [mkToken])]
        rw [if_pos ?_]
        · simp only [List.any_eq_true, decide_eq_true_eq]
          exact ⟨u, hu, rfl⟩
      · rw [if_neg hpw] at hlog
        simp at hlog
  · intro s2 tk t2 hsig hemb habs
    exact token_required_custom_revoked s2 tk t2 hsig (by omega) habs
  · intro s2 tk t2 hsig
    exact token_required_custom_sig_fail s2 tk t2 hsig
  · intro s2 tk t2 srow hsig hemb hrow hexp
    rw [token_required_custom_found s2 tk t2 srow hsig (by omega) hrow]
    rw [if_pos (by simp only [SessionRow.is_expired, decide_eq_true_eq]; omega)]

/-- Witness for C1 at a concrete login: one user, login at time 0 with a
TTL of 100, authentication checked at time 50. -/
theorem login_authenticate_contract_witness :
    ((50 : Int) < (mkToken 1 0 100).embExp → (50 : Int) < 100 →
      token_required_custom
        ⟨[⟨1, "a@b", "pw"⟩], [⟨"jwt-1-0", 1, 100⟩]⟩ (mkToken 1 0 100) 50 =
        .ok (mkToken 1 0 100).identity) ∧
    (∀ (s2 : AuthState) (tk : Token) (t2 : Int),
      tk.sigValid = true → t2 < tk.embExp →
      s2.sessions.find? (fun s => s.token = tk.body) = none →
      token_required_custom s2 tk t2 = .err 401 msgRevoked) ∧
    (∀ (s2 : AuthState) (tk : Token) (t2 : Int),
      tk.sigValid = false →
      token_required_custom s2 tk t2 = .err 422 msgInvalidToken) ∧
    (∀ (s2 : AuthState) (tk : Token) (t2 : Int) (srow : SessionRow),
      tk.sigValid = true → t2 < tk.embExp →
      s2.sessions.find? (fun s => s.token = tk.body) = some srow →
      srow.expiresAt < t2 →
      token_required_custom s2 tk t2 = .err 401 msgLedgerExpired) :=
  login_authenticate_contract ⟨[⟨1, "a@b", "pw"⟩], []⟩
    ⟨[⟨1, "a@b", "pw"⟩], [⟨"jwt-1-0", 1, 100⟩]⟩
    "a@b" "pw" 0 100 50 (mkToken 1 0 100) 100 (by decide)

/-! ### C8: two-segment validation precedes any warehouse client -/

/-- Splitting never yields an empty list of segments. -/
theorem splitDots_ne_nil (l : List Char) : splitDots l ≠ [] := by
  induction l with
  | nil => simp [splitDots]
  | cons c cs ih =>
    rw [splitDots]
    by_cases hc : c = '.'
    · simp [hc]
    · rw [if_neg hc]
      cases h : splitDots cs with
      | nil => exact absurd h ih
      | cons s rest => simp

/-- A name that splits into two dot-separated segments contains a dot. -/
theorem splitDots_length_two_contains (l : List Char)
    (h : (splitDots l).length = 2) : l.contains '.' = true := by
  induction l with
  | nil => simp [splitDots] at h
  | cons c cs ih =>
    rw [splitDots] at h
    by_cases hc : c = '.'
    · simp [List.contains_cons, hc]
    · rw [if_neg hc] at h
      have hrec : (splitDots cs).length = 2 := by
        cases hsp : splitDots cs with
        | nil => exact absurd hsp (splitDots_ne_nil cs)
        | cons s rest =>
          rw [hsp] at h
          simp at h ⊢
          omega
      rw [List.contains_cons]
      rw [ih hrec]
      simp

/-- C8: a fetch_schema request whose object name does not split into
exactly two dot-separated segments is answered with a 400 validation
response, and no warehouse client construction or network call is reached;
a name with exactly two segments is never rejected by this format check. -/
theorem table_schema_two_segment_validation (reg : Registry) (uid cid : Nat)
    (name : List Char) :
    ((splitDots name).length ≠ 2 →
      (∃ m, get_table_schema_endpoint reg uid (some ⟨some cid, some name⟩) =
        .badRequest m) ∧
      (∀ c nm, get_table_schema_endpoint reg uid (some ⟨some cid, some name⟩) ≠
        .bqServiceCall c nm)) ∧
    ((splitDots name).length = 2 →
      get_table_schema_endpoint reg uid (some ⟨some cid, some name⟩) ≠
        .badRequest msgFormat) := by
  constructor
  · intro hlen
    rw [get_table_schema_endpoint]
    dsimp only
    by_cases hemp : name.isEmpty = true
    · rw [if_pos hemp]
      exact ⟨⟨msgNameRequired, rfl⟩, by intro c nm; simp⟩
    · rw [if_neg hemp]
      rw [if_pos (Or.inr hlen)]
      exact ⟨⟨msgFormat, rfl⟩, by intro c nm; simp⟩
  · intro hlen
    rw [get_table_schema_endpoint]
    dsimp only
    have hne : name ≠ [] := by
      intro hcon
      rw [hcon] at hlen
      simp [splitDots] at hlen
    rw [if_neg (by simp [List.isEmpty_iff, hne])]
    rw [if_neg ?_]
    · split
      · simp
      · simp
    · rw [not_or]
      constructor
      · rw [not_not]
        exact splitDots_length_two_contains name hlen
      · rw [not_not]
        exact hlen

/-- Witness for C8 at concrete names: abc has one segment and is rejected
before any client; a.b has two segments and passes the format check. -/
theorem table_schema_two_segment_validation_witness :
    ((∃ m, get_table_schema_endpoint ⟨[], 0⟩ 1
        (some ⟨some 7, some ("abc".toList)⟩) = .badRequest m) ∧
      (∀ c nm, get_table_schema_endpoint ⟨[], 0⟩ 1
        (some ⟨some 7, some ("abc".toList)⟩) ≠ .bqServiceCall c nm)) ∧
    get_table_schema_endpoint ⟨[], 0⟩ 1
        (some ⟨some 7, some ("a.b".toList)⟩) ≠ .badRequest msgFormat :=
  ⟨(table_schema_two_segment_validation ⟨[], 0⟩ 1 7 ("abc".toList)).1 (by decide),
   (table_schema_two_segment_validation ⟨[], 0⟩ 1 7 ("a.b".toList)).2 (by decide)⟩

/-! ### C5: duplicate connection names -/

/-- C5 counterexample: two concurrent register_connection calls for the
same fresh (user_id, name) yield one 201 success, but the loser receives
the generic 500 failure, not the 409 Conflict the claim states: the unique
constraint rejects the second INSERT and the generic except clause maps it
to 500.  Exactly one row is created. -/
theorem upload_config_race_loser_not_conflict :
    upload_config_race ⟨[], 0⟩ 1 "c1" = (⟨[⟨0, 1, "c1"⟩], 1⟩, 201, 500) ∧
    (upload_config_race ⟨[], 0⟩ 1 "c1").2.2 ≠ 409 := by
  decide

/-- Rows matching a predicate that any-fails are filtered away. -/
theorem filter_eq_nil_of_any_false (l : List ConfigRow)
    (p : ConfigRow → Bool) (h : l.any p = false) : l.filter p = [] := by
  induction l with
  | nil => rfl
  | cons a rest ih =>
    rw [List.any_cons] at h
    have ha : p a = false := by
      cases hpa : p a
      · rfl
      · rw [hpa] at h
        simp at h
    have hrest : rest.any p = false := by
      cases hr : rest.any p
      · rfl
      · rw [hr] at h
        simp at h
    rw [List.filter_cons, if_neg (by simp [ha])]
    exact ih hrest

/-- C5 amended: register_connection returns 409 Conflict when the
duplicate (user_id, name) is already visible at check time; under two
concurrent calls on a fresh name, exactly one succeeds with 201 and
exactly one row is created, but the loser receives the generic 500
storage-failure response (the unique-constraint violation is caught by the
catch-all handler), not Conflict. -/
theorem upload_config_conflict_and_race (reg : Registry) (uid : Nat)
    (n : String)
    (habs : reg.configs.any (fun c => c.userId = uid && c.name = n) = false) :
    (upload_config_race reg uid n).2.1 = 201 ∧
    (upload_config_race reg uid n).2.2 = 500 ∧
    ((upload_config_race reg uid n).1.configs.filter
        (fun c => c.userId = uid && c.name = n)).length = 1 ∧
    (∀ (reg2 : Registry) (key : List (String × String)),
      n.isEmpty = false → key ≠ [] →
      reg2.configs.any (fun c => c.userId = uid && c.name = n) = true →
      upload_config reg2 uid (some n) (some key) = (reg2, 409)) := by
  have h1 : commitInsert reg uid n =
      ({ configs := reg.configs ++ [⟨reg.nextId, uid, n⟩],
         nextId := reg.nextId + 1 }, 201) := by
    rw [commitInsert, if_neg (by simp [habs])]
  have h2 : commitInsert
      { configs := reg.configs ++ [⟨reg.nextId, uid, n⟩],
        nextId := reg.nextId + 1 } uid n =
      ({ configs := reg.configs ++ [⟨reg.nextId, uid, n⟩],
         nextId := reg.nextId + 1 }, 500) := by
    rw [commitInsert]
    rw [if_pos ?_]
    simp only [List.any_append]
    rw [habs]
    simp
  have hrace : upload_config_race reg uid n =
      ({ configs := reg.configs ++ [⟨reg.nextId, uid, n⟩],
         nextId := reg.nextId + 1 }, 201, 500) := by
    simp only [upload_config_race, habs, Bool.false_eq_true, if_false, h1, h2]
  refine ⟨by rw [hrace], by rw [hrace], ?_, ?_⟩
  · rw [hrace]
    simp only [List.filter_append]
    rw [filter_eq_nil_of_any_false reg.configs _ habs]
    simp
  · intro reg2 key hne hkey hdup
    rw [upload_config]
    rw [if_neg (by simp [hne])]
    rw [if_neg (by simp [List.isEmpty_iff, hkey])]
    rw [if_pos (by simp [hdup])]

/-- Witness for the C5 amended theorem on an empty registry. -/
theorem upload_config_conflict_and_race_witness :
    (upload_config_race ⟨[], 0⟩ 2 "conn").2.1 = 201 ∧
    (upload_config_race ⟨[], 0⟩ 2 "conn").2.2 = 500 ∧
    ((upload_config_race ⟨[], 0⟩ 2 "conn").1.configs.filter
        (fun c => c.userId = 2 && c.name = "conn")).length = 1 ∧
    (∀ (reg2 : Registry) (key : List (String × String)),
      "conn".isEmpty = false → key ≠ [] →
      reg2.configs.any (fun c => c.userId = 2 && c.name = "conn") = true →
      upload_config reg2 2 (some "conn") (some key) = (reg2, 409)) :=
  upload_config_conflict_and_race ⟨[], 0⟩ 2 "conn" (by decide)

/-! ### C2: upsert merges and never erases by omission -/

/-- A field row that does not match the updated (object_id, field_name)
pair survives updateFirstField unchanged. -/
theorem mem_updateFirstField_of_ne (objId : Nat) (fn : String)
    (desc : Option String) (f : FieldRow) :
    ∀ (l : List FieldRow), f ∈ l → ¬(f.objectId = objId ∧ f.fieldName = fn) →
    f ∈ updateFirstField objId fn desc l := by
  intro l
  induction l with
  | nil =>
    intro h _
    cases h
  | cons g gs ih =>
    intro hmem hne
    rw [updateFirstField]
    by_cases hg : g.objectId = objId ∧ g.fieldName = fn
    · rw [if_pos hg]
      cases hmem with
      | head => exact absurd hg hne
      | tail _ htail => exact List.mem_cons_of_mem _ htail
    · rw [if_neg hg]
      cases hmem with
      | head => exact List.mem_cons_self _ _
      | tail _ htail => exact List.mem_cons_of_mem _ (ih htail hne)

/-- The fields loop never touches the objects table. -/
theorem processFields_objects (objId : Nat) (fl : List FieldSpec) :
    ∀ (ms ms' : MetaStore), processFields objId fl ms = some ms' →
    ms'.objects = ms.objects := by
  induction fl with
  | nil =>
    intro ms ms' h
    rw [processFields] at h
    cases h
    rfl
  | cons fi rest ih =>
    intro ms ms' h
    rw [processFields] at h
    cases hn : fi.name with
    | none =>
      simp only [hn] at h
      exact Option.noConfusion h
    | some fn =>
      simp only [hn] at h
      by_cases hemp : fn.isEmpty = true
      · rw [if_pos hemp] at h
        cases h
      · rw [if_neg hemp] at h
        cases hf : ms.fields.find? (fun f => f.objectId = objId && f.fieldName = fn) with
        | none =>
          simp only [hf] at h
          have h2 := ih _ _ h
          exact h2
        | some f0 =>
          simp only [hf] at h
          by_cases hd : fi.hasDescription = true
          · rw [if_pos hd] at h
            have h2 := ih _ _ h
            exact h2
          · rw [if_neg hd] at h
            have h2 := ih _ _ h
            exact h2

/-- A field row none of whose matching descriptors carries a description
key survives the fields loop unchanged (in particular, rows never named
are never deleted). -/
theorem processFields_preserves_field (objId : Nat) (fl : List FieldSpec) :
    ∀ (ms ms' : MetaStore) (f : FieldRow),
    processFields objId fl ms = some ms' → f ∈ ms.fields →
    (∀ d ∈ fl, ¬(f.objectId = objId ∧ d.name = some f.fieldName ∧
      d.hasDescription = true)) →
    f ∈ ms'.fields := by
  induction fl with
  | nil =>
    intro ms ms' f h hmem _
    rw [processFields] at h
    cases h
    exact hmem
  | cons fi rest ih =>
    intro ms ms' f h hmem hnd
    have hndrest : ∀ d ∈ rest, ¬(f.objectId = objId ∧ d.name = some f.fieldName ∧
        d.hasDescription = true) :=
      fun d hd => hnd d (List.mem_cons_of_mem _ hd)
    rw [processFields] at h
    cases hn : fi.name with
    | none =>
      simp only [hn] at h
      exact Option.noConfusion h
    | some fn =>
      simp only [hn] at h
      by_cases hemp : fn.isEmpty = true
      · rw [if_pos hemp] at h
        cases h
      · rw [if_neg hemp] at h
        cases hf : ms.fields.find? (fun x => x.objectId = objId && x.fieldName = fn) with
        | none =>
          simp only [hf] at h
          exact ih _ _ f h (List.mem_append_left _ hmem) hndrest
        | some f0 =>
          simp only [hf] at h
          by_cases hd : fi.hasDescription = true
          · rw [if_pos hd] at h
            have hne : ¬(f.objectId = objId ∧ f.fieldName = fn) := by
              intro hcon
              exact hnd fi (List.mem_cons_self _ _)
                ⟨hcon.1, by rw [hn, hcon.2], hd⟩
            exact ih _ _ f h
              (mem_updateFirstField_of_ne objId fn fi.description f ms.fields hmem hne)
              hndrest
          · rw [if_neg hd] at h
            exact ih _ _ f h hmem hndrest

/-- The row found by find? is replaced, with the new description, by
updateFirstObject. -/
theorem mem_updateFirstObject_of_find (uid cid : Nat) (name : String)
    (desc : Option String) :
    ∀ (l : List ObjectRow) (o : ObjectRow),
    l.find? (fun x =>
      x.userId = uid && x.connectionId = cid && x.objectName = name) = some o →
    { o with objectDescription := desc } ∈ updateFirstObject uid cid name desc l := by
  intro l
  induction l with
  | nil =>
    intro o h
    cases h
  | cons g gs ih =>
    intro o h
    rw [updateFirstObject]
    by_cases hg : g.userId = uid ∧ g.connectionId = cid ∧ g.objectName = name
    · rw [if_pos hg]
      rw [List.find?_cons_of_pos _ (by simp [hg.1, hg.2.1, hg.2.2])] at h
      cases h
      exact List.mem_cons_self _ _
    · rw [if_neg hg]
      rw [List.find?_cons_of_neg _ ?_] at h
      · exact List.mem_cons_of_mem _ (ih o h)
      · simp only [Bool.and_eq_true, decide_eq_true_eq]
        tauto

/-- C2: when upsert_object_metadata succeeds on an existing Object, the
Object's stored description is unchanged when the request body omits the
object_description key and is set to the supplied value when it is
present; and every pre-existing Field of the Object that is either not
named in the request's fields list or named only by descriptors lacking
the field_description key is still stored, exactly unchanged. -/
theorem update_table_schema_frame
    (reg : Registry) (ms ms' : MetaStore) (uid : Nat) (req : UpsertRequest)
    (cfg : ConfigRow) (o : ObjectRow) (oid : Nat)
    (hcfg : reg.configs.find?
      (fun c => c.id = req.connectionId && c.userId = uid) = some cfg)
    (hobj : ms.objects.find? (fun x =>
      x.userId = uid && x.connectionId = cfg.id &&
        x.objectName = req.objectName) = some o)
    (hrun : update_table_schema_description reg ms uid req = (ms', .ok oid)) :
    (req.hasObjectDescription = false → o ∈ ms'.objects) ∧
    (req.hasObjectDescription = true →
      { o with objectDescription := req.objectDescription } ∈ ms'.objects) ∧
    (∀ f ∈ ms.fields,
      (∀ d ∈ req.fields.getD [],
        ¬(f.objectId = o.id ∧ d.name = some f.fieldName ∧
          d.hasDescription = true)) →
      f ∈ ms'.fields) := by
  by_cases hemp : req.objectName.isEmpty = true
  · rw [update_table_schema_description, if_pos hemp] at hrun
    simp at hrun
  · rw [update_table_schema_description, if_neg hemp] at hrun
    simp only [hcfg, hobj] at hrun
    cases hfl : req.fields with
    | none =>
      simp only [hfl, Option.getD_none] at hrun ⊢
      by_cases hd : req.hasObjectDescription = true
      · rw [if_pos hd] at hrun
        cases hpf : processFields o.id []
            { ms with objects :=
                updateFirstObject uid cfg.id req.objectName req.objectDescription ms.objects } with
        | none =>
          simp only [hpf] at hrun
          simp at hrun
        | some ms2 =>
          simp only [hpf, Prod.mk.injEq, UpsertResult.ok.injEq] at hrun
          obtain ⟨hms, hoid⟩ := hrun
          subst hms
          refine ⟨?_, ?_, ?_⟩
          · intro hcon
            rw [hd] at hcon
            cases hcon
          · intro _
            rw [processFields_objects _ _ _ _ hpf]
            exact mem_updateFirstObject_of_find uid cfg.id req.objectName
              req.objectDescription ms.objects o hobj
          · intro f hf _
            exact processFields_preserves_field _ _ _ _ f hpf hf (by simp)
      · rw [if_neg hd] at hrun
        cases hpf : processFields o.id [] ms with
        | none =>
          simp only [hpf] at hrun
          simp at hrun
        | some ms2 =>
          simp only [hpf, Prod.mk.injEq, UpsertResult.ok.injEq] at hrun
          obtain ⟨hms, hoid⟩ := hrun
          subst hms
          refine ⟨?_, ?_, ?_⟩
          · intro _
            rw [processFields_objects _ _ _ _ hpf]
            exact List.mem_of_find?_eq_some hobj
          · intro hcon
            exact absurd hcon hd
          · intro f hf _
            exact processFields_preserves_field _ _ _ _ f hpf hf (by simp)
    | some fl =>
      simp only [hfl, Option.getD_some] at hrun ⊢
      by_cases hd : req.hasObjectDescription = true
      · rw [if_pos hd] at hrun
        cases hpf : processFields o.id fl
            { ms with objects :=
                updateFirstObject uid cfg.id req.objectName req.objectDescription ms.objects } with
        | none =>
          simp only [hpf] at hrun
          simp at hrun
        | some ms2 =>
          simp only [hpf, Prod.mk.injEq, UpsertResult.ok.injEq] at hrun
          obtain ⟨hms, hoid⟩ := hrun
          subst hms
          refine ⟨?_, ?_, ?_⟩
          · intro hcon
            rw [hd] at hcon
            cases hcon
          · intro _
            rw [processFields_objects _ _ _ _ hpf]
            exact mem_updateFirstObject_of_find uid cfg.id req.objectName
              req.objectDescription ms.objects o hobj
          · intro f hf hnd
            exact processFields_preserves_field _ _ _ _ f hpf hf hnd
      · rw [if_neg hd] at hrun
        cases hpf : processFields o.id fl ms with
        | none =>
          simp only [hpf] at hrun
          simp at hrun
        | some ms2 =>
          simp only [hpf, Prod.mk.injEq, UpsertResult.ok.injEq] at hrun
          obtain ⟨hms, hoid⟩ := hrun
          subst hms
          refine ⟨?_, ?_, ?_⟩
          · intro _
            rw [processFields_objects _ _ _ _ hpf]
            exact List.mem_of_find?_eq_some hobj
          · intro hcon
            exact absurd hcon hd
          · intro f hf hnd
            exact processFields_preserves_field _ _ _ _ f hpf hf hnd

/-- Witness for C2: connection 7 of user 1 holds object d.t (description
D, id 2) with fields total (description F1) and amt (description F2); the
request names only total, without a field_description key and without an
object_description key (the spec's own scenario). -/
theorem update_table_schema_frame_witness :
    ((⟨7, "d.t", false, none, some [⟨some "total", false, none⟩]⟩ :
        UpsertRequest).hasObjectDescription = false →
      (⟨2, 1, 7, "d.t", some "D"⟩ : ObjectRow) ∈
        (update_table_schema_description ⟨[⟨7, 1, "c"⟩], 8⟩
          ⟨[⟨2, 1, 7, "d.t", some "D"⟩],
           [⟨3, 2, "total", some "F1"⟩, ⟨4, 2, "amt", some "F2"⟩], 5⟩ 1
          ⟨7, "d.t", false, none, some [⟨some "total", false, none⟩]⟩).1.objects) ∧
    ((⟨7, "d.t", false, none, some [⟨some "total", false, none⟩]⟩ :
        UpsertRequest).hasObjectDescription = true →
      ({ (⟨2, 1, 7, "d.t", some "D"⟩ : ObjectRow) with
          objectDescription := none } : ObjectRow) ∈
        (update_table_schema_description ⟨[⟨7, 1, "c"⟩], 8⟩
          ⟨[⟨2, 1, 7, "d.t", some "D"⟩],
           [⟨3, 2, "total", some "F1"⟩, ⟨4, 2, "amt", some "F2"⟩], 5⟩ 1
          ⟨7, "d.t", false, none, some [⟨some "total", false, none⟩]⟩).1.objects) ∧
    (∀ f ∈ ([⟨3, 2, "total", some "F1"⟩, ⟨4, 2, "amt", some "F2"⟩] :
        List FieldRow),
      (∀ d ∈ ((⟨7, "d.t", false, none, some [⟨some "total", false, none⟩]⟩ :
          UpsertRequest).fields.getD []),
        ¬(f.objectId = 2 ∧ d.name = some f.fieldName ∧
          d.hasDescription = true)) →
      f ∈ (update_table_schema_description ⟨[⟨7, 1, "c"⟩], 8⟩
          ⟨[⟨2, 1, 7, "d.t", some "D"⟩],
           [⟨3, 2, "total", some "F1"⟩, ⟨4, 2, "amt", some "F2"⟩], 5⟩ 1
          ⟨7, "d.t", false, none, some [⟨some "total", false, none⟩]⟩).1.fields) :=
  update_table_schema_frame ⟨[⟨7, 1, "c"⟩], 8⟩
    ⟨[⟨2, 1, 7, "d.t", some "D"⟩],
     [⟨3, 2, "total", some "F1"⟩, ⟨4, 2, "amt", some "F2"⟩], 5⟩
    (update_table_schema_description ⟨[⟨7, 1, "c"⟩], 8⟩
      ⟨[⟨2, 1, 7, "d.t", some "D"⟩],
       [⟨3, 2, "total", some "F1"⟩, ⟨4, 2, "amt", some "F2"⟩], 5⟩ 1
      ⟨7, "d.t", false, none, some [⟨some "total", false, none⟩]⟩).1
    1 ⟨7, "d.t", false, none, some [⟨some "total", false, none⟩]⟩
    ⟨7, 1, "c"⟩ ⟨2, 1, 7, "d.t", some "D"⟩ 2 (by decide) (by decide) (by decide)

end BQT
